import Mathlib

/-!
Verification of the `tool-call-sandbox` service (tool loader, security screen,
sandboxed executor, session storage manager) against its natural-language
specification.  Python sources are shallowly embedded as executable Lean
functions; stateful operations are modelled by explicit state passing and
event traces (filesystem events, database connection events, launch counters).
-/

namespace ToolSandbox

/-! ## Generic association-list helpers (model of Python `dict` with insertion order) -/

def alookup {α : Type} : List (String × α) → String → Option α
  | [], _ => none
  | (k, v) :: rest, key => if k = key then some v else alookup rest key

def aset {α : Type} : List (String × α) → String → α → List (String × α)
  | [], key, v => [(key, v)]
  | (k, w) :: rest, key, v => if k = key then (k, v) :: rest else (k, w) :: aset rest key v

def adel {α : Type} : List (String × α) → String → List (String × α)
  | [], _ => []
  | (k, w) :: rest, key => if k = key then rest else (k, w) :: adel rest key

/-! ## Literal-prefix stripping (used both for `str.startswith` and regex literals) -/

def stripLit : List Char → List Char → Option (List Char)
  | [], l => some l
  | _ :: _, [] => none
  | a :: s, b :: l => if a = b then stripLit s l else none

/-- Case folding used to model Python's `re.IGNORECASE` on the ASCII letters
that occur in the dangerous-pattern literals. -/
def ciChar (c : Char) : Char := c.toLower

def ciStrip : List Char → List Char → Option (List Char)
  | [], l => some l
  | _ :: _, [] => none
  | a :: s, b :: l => if ciChar a = ciChar b then ciStrip s l else none

/-! ## A tiny matcher for the regex sublanguage used by `executor.check_dangerous_code`

The Python code applies `re.search` to patterns built from literals, `\s+`,
`\s*`, single character classes and one `[^)]*`.  We embed each pattern as a
token list and model `re.search` existence by trying every split point, which
coincides with the regex semantics for this star-height-one sublanguage. -/

inductive Tok where
  | lit (s : List Char)
  | litCI (s : List Char)
  | cls (p : Char → Bool)
  | star (p : Char → Bool)
  | plus (p : Char → Bool)

/-- Does some prefix of `l` match the token sequence? (The final `re.search`
match may end before the end of the string.) -/
def toksMatch : List Tok → List Char → Bool
  | [], _ => true
  | Tok.lit s :: ts, l =>
    match stripLit s l with
    | some r => toksMatch ts r
    | none => false
  | Tok.litCI s :: ts, l =>
    match ciStrip s l with
    | some r => toksMatch ts r
    | none => false
  | Tok.cls p :: ts, l =>
    match l with
    | [] => false
    | c :: r => p c && toksMatch ts r
  | Tok.star p :: ts, l =>
    (List.range (l.length + 1)).any fun k => (l.take k).all p && toksMatch ts (l.drop k)
  | Tok.plus p :: ts, l =>
    (List.range (l.length + 1)).any fun k =>
      decide (0 < k) && (l.take k).all p && toksMatch ts (l.drop k)

/-- Model of `re.search(pattern, code) is not None`: some suffix position of
the string starts a match. -/
def searchTok (ts : List Tok) (l : List Char) : Bool :=
  (List.range (l.length + 1)).any fun i => toksMatch ts (l.drop i)

/-- Declarative reading of `toksMatch`: the string decomposes into pieces
consumed by the successive tokens. -/
def Matches : List Tok → List Char → Prop
  | [], _ => True
  | Tok.lit s :: ts, l => ∃ r, l = s ++ r ∧ Matches ts r
  | Tok.litCI s :: ts, l => ∃ s2 r, l = s2 ++ r ∧ s2.map ciChar = s.map ciChar ∧ Matches ts r
  | Tok.cls p :: ts, l => ∃ c r, l = c :: r ∧ p c = true ∧ Matches ts r
  | Tok.star p :: ts, l => ∃ w r, l = w ++ r ∧ (∀ c ∈ w, p c = true) ∧ Matches ts r
  | Tok.plus p :: ts, l =>
    ∃ w r, l = w ++ r ∧ w ≠ [] ∧ (∀ c ∈ w, p c = true) ∧ Matches ts r

/-- Declarative reading of `re.search`: some substring decomposition matches. -/
def SearchHit (ts : List Tok) (l : List Char) : Prop :=
  ∃ pre suf, l = pre ++ suf ∧ Matches ts suf

/-! ## Security screen (`executor.py`: `DANGEROUS_IMPORTS`, `DANGEROUS_PATTERNS`,
`check_dangerous_code`) -/

/-- Python `\s` restricted to its ASCII members, which is exact for the
source-code strings the screen inspects. -/
def isSpaceChar (c : Char) : Bool :=
  c == ' ' || c == '\t' || c == '\n' || c == '\r' || c == '\x0b' || c == '\x0c'

def isQuote (c : Char) : Bool := c == '\'' || c == '"'

/-- The `[wa]` class under `re.IGNORECASE`. -/
def isWriteMode (c : Char) : Bool := c == 'w' || c == 'a' || c == 'W' || c == 'A'

def notCloseParen (c : Char) : Bool := !(c == ')')

/-- Model of Python substring containment `needle in hay`. -/
def containsSub (needle hay : List Char) : Bool := searchTok [Tok.lit needle] hay

def dangerous_imports : List String :=
  ["subprocess", "os.system", "os.popen", "os.spawn", "commands", "pty",
   "pexpect", "paramiko", "fabric", "socket", "ctypes", "cffi",
   "multiprocessing", "threading", "__builtins__", "builtins", "importlib",
   "pickle", "marshal", "shelve", "tempfile", "shutil.rmtree", "os.remove",
   "os.unlink", "os.rmdir"]

/-- Pattern `import\s+<name>` (note: the name is not end-anchored). -/
def impPat (d : String) : List Tok :=
  [Tok.lit "import".toList, Tok.plus isSpaceChar, Tok.lit d.toList]

/-- Pattern `from\s+<first component of name>\s+import`. -/
def fromPat (d : String) : List Tok :=
  [Tok.lit "from".toList, Tok.plus isSpaceChar,
   Tok.lit (d.toList.takeWhile (fun c => !(c == '.'))), Tok.plus isSpaceChar,
   Tok.lit "import".toList]

/-- Pattern `__import__\s*\(\s*['"]<name>['"]`. -/
def dynPat (d : String) : List Tok :=
  [Tok.lit "__import__".toList, Tok.star isSpaceChar, Tok.lit ['('],
   Tok.star isSpaceChar, Tok.cls isQuote, Tok.lit d.toList, Tok.cls isQuote]

/-- The `DANGEROUS_PATTERNS` regex list (applied with `re.IGNORECASE`). -/
def dangerous_patterns : List (List Tok) :=
  [[Tok.litCI "eval".toList, Tok.star isSpaceChar, Tok.lit ['(']],
   [Tok.litCI "exec".toList, Tok.star isSpaceChar, Tok.lit ['(']],
   [Tok.litCI "compile".toList, Tok.star isSpaceChar, Tok.lit ['(']],
   [Tok.litCI "__import__".toList, Tok.star isSpaceChar, Tok.lit ['(']],
   [Tok.litCI "open".toList, Tok.star isSpaceChar, Tok.lit ['('],
    Tok.star notCloseParen, Tok.cls isQuote, Tok.cls isWriteMode],
   [Tok.litCI "getattr".toList, Tok.star isSpaceChar, Tok.lit ['('],
    Tok.star isSpaceChar, Tok.litCI "__builtins__".toList],
   [Tok.litCI "globals".toList, Tok.star isSpaceChar, Tok.lit ['('],
    Tok.star isSpaceChar, Tok.lit [')']],
   [Tok.litCI "locals".toList, Tok.star isSpaceChar, Tok.lit ['('],
    Tok.star isSpaceChar, Tok.lit [')']]]

/-- One iteration body of the `DANGEROUS_IMPORTS` loop: the cheap substring
guard followed by the three statement-shaped regexes. -/
def importHit (d : String) (code : List Char) : Bool :=
  containsSub d.toList code &&
    (searchTok (impPat d) code || searchTok (fromPat d) code ||
      searchTok (dynPat d) code)

def findBlockedImport : List String → List Char → Option String
  | [], _ => none
  | d :: ds, code => if importHit d code then some d else findBlockedImport ds code

/-- Embedding of `executor.check_dangerous_code(code, language)`, returning
`(is_safe, reason)`. -/
def check_dangerous_code (code language : String) : Bool × String :=
  if language ≠ "python" then (true, "")
  else
    match findBlockedImport dangerous_imports code.toList with
    | some d => (false, "Blocked import: " ++ d)
    | none =>
      if dangerous_patterns.any (fun ts => searchTok ts code.toList) then
        (false, "Blocked pattern detected")
      else (true, "")

/-! ## POSIX path helpers used by `storage.py`

`normpathL`, `pjoinL` and `dirnameL` are direct translations of CPython's
`posixpath.normpath`, `posixpath.join` (two arguments, as called in the
source) and `posixpath.dirname`. -/

def splitSlash : List Char → List (List Char)
  | [] => [[]]
  | c :: rest =>
    let r := splitSlash rest
    if c = '/' then [] :: r
    else
      match r with
      | h :: t => (c :: h) :: t
      | [] => [[c]]

def lstripSlashL (l : List Char) : List Char := l.dropWhile (fun c => c == '/')

/-- One step of `posixpath.normpath`'s component loop. -/
def normStep (islashes : Nat) (acc : List (List Char)) (comp : List Char) :
    List (List Char) :=
  if comp = [] ∨ comp = ['.'] then acc
  else if comp ≠ ['.', '.'] ∨ (islashes = 0 ∧ acc = []) ∨
      (acc ≠ [] ∧ acc.getLast? = some ['.', '.']) then
    acc ++ [comp]
  else if acc ≠ [] then acc.dropLast
  else acc

def normpathL (p : List Char) : List Char :=
  if p = [] then ['.']
  else
    let islashes : Nat :=
      if (stripLit ['/'] p).isSome then
        (if (stripLit ['/', '/'] p).isSome ∧ (stripLit ['/', '/', '/'] p) = none then 2
         else 1)
      else 0
    let nc := (splitSlash p).foldl (normStep islashes) []
    let res := List.replicate islashes '/' ++ List.intercalate ['/'] nc
    if res = [] then ['.'] else res

/-- Two-argument `posixpath.join`. -/
def pjoinL (a b : List Char) : List Char :=
  if (stripLit ['/'] b).isSome then b
  else if a = [] ∨ a.getLast? = some '/' then a ++ b
  else a ++ '/' :: b

def dirnameL (p : List Char) : List Char :=
  let i := if p.contains '/' then
      p.length - (p.reverse.takeWhile (fun c => !(c == '/'))).length
    else 0
  let head := p.take i
  if head ≠ [] ∧ head.any (fun c => !(c == '/')) then
    (head.reverse.dropWhile (fun c => c == '/')).reverse
  else head

def pjoin (a b : String) : String := String.mk (pjoinL a.toList b.toList)

/-! ## `StorageManager._safe_path` and the file operations

The file operations also return the list of filesystem touch points they
perform, so that "no filesystem access" is a provable statement. -/

/-- Embedding of `StorageManager._safe_path(workspace, path)`. -/
def safe_path (workspace path : String) : Option String :=
  if path = "" then some workspace
  else
    let p := lstripSlashL path.toList
    let full := normpathL (pjoinL workspace.toList p)
    if (stripLit (normpathL workspace.toList) full).isSome then some (String.mk full)
    else none

inductive FsEvent where
  | mkdirs (dir : String)
  | writeFile (path content : String)
  | readFile (path : String)
  | existsCheck (path : String)
  | listDir (path : String)
deriving DecidableEq

inductive FileWriteOut where
  | ok (path : String) (size : Nat)
  | err (msg : String)
deriving DecidableEq

inductive FileReadOut where
  | ok (path content : String) (size : Nat)
  | err (msg : String)
deriving DecidableEq

inductive FileListOut where
  | ok (path : Option String) (files : List (String × Nat)) (dirs : List String)
  | err (msg : String)
deriving DecidableEq

/-- Embedding of `StorageManager.file_write` at workspace level (the session
lookup that supplies `workspace` is modelled separately). -/
def file_write_ws (workspace path content : String) : FileWriteOut × List FsEvent :=
  match safe_path workspace path with
  | none => (FileWriteOut.err "Invalid path", [])
  | some sp =>
    (FileWriteOut.ok path content.length,
     [FsEvent.mkdirs (String.mk (dirnameL sp.toList)), FsEvent.writeFile sp content])

/-- Embedding of `StorageManager.file_read` over an explicit file map. -/
def file_read_ws (fs : List (String × String)) (workspace path : String) :
    FileReadOut × List FsEvent :=
  match safe_path workspace path with
  | none => (FileReadOut.err "Invalid path", [])
  | some sp =>
    match alookup fs sp with
    | some content => (FileReadOut.ok path content content.length, [FsEvent.readFile sp])
    | none => (FileReadOut.err ("File not found: " ++ path), [FsEvent.readFile sp])

/-- Embedding of `StorageManager.file_list` over explicit directory-existence
and scan oracles. -/
def file_list_ws (dirExists : String → Bool)
    (scan : String → List (String × Nat) × List String) (workspace path : String) :
    FileListOut × List FsEvent :=
  match safe_path workspace path with
  | none => (FileListOut.err "Invalid path", [])
  | some sp =>
    if dirExists sp then
      (FileListOut.ok (some (if path = "" then "/" else path)) (scan sp).1 (scan sp).2,
       [FsEvent.existsCheck sp, FsEvent.listDir sp])
    else (FileListOut.ok none [] [], [FsEvent.existsCheck sp])

/-! ## Session state and the key-value / info / database operations -/

structure SessionData where
  created_at : Nat
  workspace_dir : String
  data : List (String × List (String × String))
  db_path : Option String
deriving DecidableEq

structure ManagerState where
  base_workspace : String
  now : Nat
  sessions : List (String × SessionData)
  created_dirs : List String
  fs_files : List (String × String)
deriving DecidableEq

/-- Embedding of `StorageManager.get_or_create_session`; creating a session
also creates its workspace directory. -/
def get_or_create_session (st : ManagerState) (sid : String) :
    SessionData × ManagerState :=
  match alookup st.sessions sid with
  | some s => (s, st)
  | none =>
    let ws := pjoin st.base_workspace sid
    let s : SessionData :=
      { created_at := st.now, workspace_dir := ws,
        data := [("default", [])], db_path := none }
    (s, { st with sessions := aset st.sessions sid s,
                  created_dirs := st.created_dirs ++ [ws] })

def kv_set (st : ManagerState) (sid key value ns : String) : Bool × ManagerState :=
  let p := get_or_create_session st sid
  let s := p.1
  let nsmap := (alookup s.data ns).getD []
  let s2 := { s with data := aset s.data ns (aset nsmap key value) }
  (true, { p.2 with sessions := aset p.2.sessions sid s2 })

def kv_get (st : ManagerState) (sid key ns : String) : Option String × ManagerState :=
  let p := get_or_create_session st sid
  (alookup ((alookup p.1.data ns).getD []) key, p.2)

def kv_delete (st : ManagerState) (sid key ns : String) : Bool × ManagerState :=
  let p := get_or_create_session st sid
  let s := p.1
  match alookup s.data ns with
  | none => (false, p.2)
  | some m =>
    match alookup m key with
    | none => (false, p.2)
    | some _ =>
      let s2 := { s with data := aset s.data ns (adel m key) }
      (true, { p.2 with sessions := aset p.2.sessions sid s2 })

structure SessionInfoOut where
  session_id : String
  created_at : Nat
  namespaces : List String
  kv_keys_count : Nat
  kv_storage_bytes : Nat
  workspace_bytes : Nat
  has_database : Bool
deriving DecidableEq

def underDir (dir p : String) : Bool := (stripLit (dir.toList ++ ['/']) p.toList).isSome

/-- Recursive-walk byte count of the workspace (file sizes modelled as content
lengths). -/
def workspaceBytes (st : ManagerState) (ws : String) : Nat :=
  if st.created_dirs.contains ws then
    ((st.fs_files.filter (fun f => underDir ws f.1)).map (fun f => f.2.length)).sum
  else 0

/-- Embedding of `StorageManager.get_session_info`.  Note that it begins with
`get_or_create_session`, exactly as the source does. -/
def get_session_info (st : ManagerState) (sid : String) :
    SessionInfoOut × ManagerState :=
  let p := get_or_create_session st sid
  let s := p.1
  ({ session_id := sid,
     created_at := s.created_at,
     namespaces := s.data.map Prod.fst,
     kv_keys_count := (s.data.map (fun q => q.2.length)).sum,
     kv_storage_bytes := (s.data.map (fun q => (q.2.map (fun kv => kv.2.length)).sum)).sum,
     workspace_bytes := workspaceBytes p.2 s.workspace_dir,
     has_database :=
       match s.db_path with
       | some dbp => (alookup p.2.fs_files dbp).isSome
       | none => false }, p.2)

/-! ## `StorageManager.db_query` with a connection-event trace

The embedded SQLite engine is abstracted as `connect` (may fail) plus
`engine` (executes one statement, returning a cursor description, fetched
rows and a rowcount, or raising).  The event trace records when the
connection is opened and closed. -/

structure EngineOut where
  description : Option (List String)
  rows : List (List String)
  rowcount : Int
deriving DecidableEq

inductive DbEvent where
  | opened
  | closed
deriving DecidableEq

inductive DbResult where
  | selectOk (columns : List String) (rows : List (List (String × String)))
      (row_count : Nat)
  | execOk (rows_affected : Int)
  | err (msg : String)
deriving DecidableEq

def pStripL (l : List Char) : List Char :=
  ((l.dropWhile isSpaceChar).reverse.dropWhile isSpaceChar).reverse

def toLowerL (l : List Char) : List Char := l.map Char.toLower

/-- Model of `sql.strip().lower().startswith("select")`. -/
def isSelectSql (sql : String) : Bool :=
  (stripLit "select".toList (toLowerL (pStripL sql.toList))).isSome

/-- Embedding of the body of `StorageManager.db_query` (its `try`/`except`). -/
def db_query_run (connect : Except String Unit)
    (engine : String → Except String EngineOut) (sql : String) :
    DbResult × List DbEvent :=
  match connect with
  | Except.error e => (DbResult.err e, [])
  | Except.ok _ =>
    match engine sql with
    | Except.error e => (DbResult.err e, [DbEvent.opened])
    | Except.ok out =>
      if isSelectSql sql then
        match out.description with
        | none => (DbResult.err "cursor description is not iterable", [DbEvent.opened])
        | some cols =>
          (DbResult.selectOk cols (out.rows.map (fun row => cols.zip row)) out.rows.length,
           [DbEvent.opened, DbEvent.closed])
      else (DbResult.execOk out.rowcount, [DbEvent.opened, DbEvent.closed])

/-! ## Tool loader (`tool_loader.py`) -/

structure ToolParameter where
  name : String
  type : String
  required : Bool
  description : String
  default : Option String
  enum : Option (List String)
deriving DecidableEq

structure SandboxConfig where
  image : String
  timeout : Nat
  memory : String
  cpu_percent : Nat
  network : Bool
  read_only : Bool
  mount_workspace : Bool
deriving DecidableEq

structure ToolDefinition where
  name : String
  description : String
  version : String
  enabled : Bool
  parameters : List ToolParameter
  sandbox : SandboxConfig
  instructions : String
  path : String
deriving DecidableEq

structure OpenAIProp where
  type : String
  description : String
  enum : Option (List String)
  default : Option String
deriving DecidableEq

/-- One loop iteration of `ToolDefinition.to_openai_tool`: the property dict
entry for one parameter (`enum` is attached only when truthy, i.e. a
non-empty list; `default` only when not `None`). -/
def mkOpenAIProp (p : ToolParameter) : OpenAIProp :=
  { type := p.type, description := p.description,
    enum := match p.enum with
            | some (e :: es) => some (e :: es)
            | _ => none,
    default := p.default }

/-- The full loop of `to_openai_tool`, building the `properties` map and the
`required` list together, in parameter order. -/
def to_openai_params (params : List ToolParameter) :
    List (String × OpenAIProp) × List String :=
  params.foldl
    (fun acc param =>
      (aset acc.1 param.name (mkOpenAIProp param),
       if param.required then acc.2 ++ [param.name] else acc.2))
    ([], [])

structure OpenAITool where
  name : String
  description : String
  properties : List (String × OpenAIProp)
  required : List String
deriving DecidableEq

/-- Embedding of `ToolDefinition.to_openai_tool`. -/
def to_openai_tool (t : ToolDefinition) : OpenAITool :=
  { name := t.name, description := t.description,
    properties := (to_openai_params t.parameters).1,
    required := (to_openai_params t.parameters).2 }

/-- Embedding of the loop in `ToolLoader.load_all`, over the already-parsed
descriptor results (`parse_tool_file` returns `None` for a malformed
descriptor, modelled by `Option`). -/
def load_all_from : List (Option ToolDefinition) → List (String × ToolDefinition) →
    List (String × ToolDefinition)
  | [], tools => tools
  | po :: rest, tools =>
    load_all_from rest
      (match po with
       | some t => if t.enabled then aset tools t.name t else tools
       | none => tools)

def load_all (parsed : List (Option ToolDefinition)) : List (String × ToolDefinition) :=
  load_all_from parsed []

/-! ## Executor (`executor.py`: `SandboxExecutor`) -/

structure ExecutionResult where
  success : Bool
  output : String
  error : String
  execution_time : Nat
  exec_id : String
deriving DecidableEq

/-- Python `args.get(key, default)`. -/
def argGet (args : List (String × String)) (key dflt : String) : String :=
  (alookup args key).getD dflt

/-- Embedding of `SandboxExecutor._build_command`.  The two secondary-script
builders (`_build_file_analysis_script`, `_build_web_fetch_script`) are taken
as parameters: their textual content plays no role in any claim. -/
def build_command (buildFileAnalysis buildWebFetch : List (String × String) → String)
    (tool : ToolDefinition) (args : List (String × String)) :
    Except String (List String) :=
  if tool.name = "code_execution" then
    let code := argGet args "code" ""
    let language := argGet args "language" "python"
    if language = "python" then Except.ok ["python3", "-c", code]
    else if language = "bash" then Except.ok ["bash", "-c", code]
    else if language = "node" then Except.ok ["node", "-e", code]
    else Except.error ("Unsupported language: " ++ language)
  else if tool.name = "bash_command" then
    Except.ok ["bash", "-c", argGet args "command" ""]
  else if tool.name = "file_analysis" then
    Except.ok ["python3", "-c", buildFileAnalysis args]
  else if tool.name = "web_fetch" then
    Except.ok ["python3", "-c", buildWebFetch args]
  else Except.error ("Unknown tool: " ++ tool.name)

structure WaitOutcome where
  exitCode : Int
  stdoutLog : String
  stderrLog : String
deriving DecidableEq

/-- What the container runtime did for this invocation: a normal wait (with
exit code and the two log streams read separately), a wait failure (timeout),
a `ContainerError`, or a launch-time exception. -/
inductive RunOutcome where
  | waited (w : WaitOutcome)
  | waitError (msg : String)
  | containerError (stderrLog : Option String) (msg : String)
  | launchError (msg : String)
deriving DecidableEq

/-- Embedding of `SandboxExecutor.execute` lines 405-429: the code run after
`container.wait` returns normally.  `stdout` and `stderr` come from two
separate `container.logs` calls. -/
def resultOfWait (w : WaitOutcome) (t : Nat) (eid : String) : ExecutionResult :=
  if w.exitCode = 0 then
    { success := true, output := w.stdoutLog, error := w.stderrLog,
      execution_time := t, exec_id := eid }
  else
    { success := false, output := w.stdoutLog,
      error := if w.stderrLog ≠ "" then w.stderrLog
               else "Exit code: " ++ toString w.exitCode,
      execution_time := t, exec_id := eid }

/-- Embedding of `SandboxExecutor.execute`: security pre-check, command
build, then the branch on what the container runtime reported. -/
def executeRun (buildFileAnalysis buildWebFetch : List (String × String) → String)
    (tool : ToolDefinition) (args : List (String × String)) (outcome : RunOutcome)
    (t : Nat) (eid : String) : ExecutionResult :=
  let code := argGet args "code" ""
  let language := argGet args "language" "python"
  if tool.name = "code_execution" ∧ (check_dangerous_code code language).1 = false then
    { success := false, output := "",
      error := "Security violation: " ++ (check_dangerous_code code language).2,
      execution_time := 0, exec_id := eid }
  else
    match build_command buildFileAnalysis buildWebFetch tool args with
    | Except.error e =>
      { success := false, output := "", error := e, execution_time := t, exec_id := eid }
    | Except.ok _ =>
      match outcome with
      | RunOutcome.waited w => resultOfWait w t eid
      | RunOutcome.waitError msg =>
        { success := false, output := "",
          error := "Timeout after " ++ toString tool.sandbox.timeout ++ "s: " ++ msg,
          execution_time := t, exec_id := eid }
      | RunOutcome.containerError (some se) _ =>
        { success := false, output := "", error := se, execution_time := t, exec_id := eid }
      | RunOutcome.containerError none msg =>
        { success := false, output := "", error := msg, execution_time := t, exec_id := eid }
      | RunOutcome.launchError msg =>
        { success := false, output := "", error := msg, execution_time := t, exec_id := eid }

/-! ## Server endpoint (`server.py`: `execute_tool`)

The executor and the storage dispatcher are passed in as functions; the
`Nat` threaded through is the launch counter of the spec's test double: it
is incremented exactly when the sandbox executor is invoked. -/

inductive ServerResponse where
  | httpError (status : Nat) (detail : String)
  | ok (success : Bool) (output : String) (error : String)
deriving DecidableEq

/-- The `for param in tool.parameters` validation loop: first required
parameter whose name is missing from the argument map. -/
def first_missing_required : List ToolParameter → List String → Option String
  | [], _ => none
  | p :: ps, argNames =>
    if p.required && !(argNames.contains p.name) then some p.name
    else first_missing_required ps argNames

/-- Embedding of the `/api/execute/{tool_name}` handler. -/
def execute_tool (tools : List (String × ToolDefinition)) (toolName : String)
    (args : List (String × String))
    (runStorage : List (String × String) → Bool × String × String)
    (runExec : ToolDefinition → List (String × String) → ExecutionResult)
    (launches : Nat) : ServerResponse × Nat :=
  match alookup tools toolName with
  | none => (ServerResponse.httpError 404 ("Tool not found: " ++ toolName), launches)
  | some tool =>
    match first_missing_required tool.parameters (args.map Prod.fst) with
    | some pname =>
      (ServerResponse.httpError 400 ("Missing required parameter: " ++ pname), launches)
    | none =>
      if toolName = "data_storage" then
        let r := runStorage args
        (ServerResponse.ok r.1 r.2.1 r.2.2, launches)
      else
        let r := runExec tool args
        (ServerResponse.ok r.success r.output r.error, launches + 1)

/-! ## Concrete sample values used by witness theorems -/

def defaultSandbox : SandboxConfig :=
  { image := "sandbox-executor:latest", timeout := 30, memory := "256m",
    cpu_percent := 50, network := false, read_only := true,
    mount_workspace := false }

/-- A tool shaped like the repository's `code_execution` tool. -/
def codeExecutionTool : ToolDefinition :=
  { name := "code_execution", description := "Execute code in a sandbox",
    version := "1.0.0", enabled := true,
    parameters :=
      [{ name := "code", type := "string", required := true, description := "",
         default := none, enum := none },
       { name := "language", type := "string", required := false, description := "",
         default := some "python", enum := some ["python", "bash", "node"] }],
    sandbox := defaultSandbox, instructions := "", path := "" }

/-- A minimal enabled tool used in loader witnesses. -/
def demoToolAlpha : ToolDefinition :=
  { name := "alpha", description := "demo", version := "1.0.0", enabled := true,
    parameters := [], sandbox := defaultSandbox, instructions := "", path := "" }

/-- A disabled sibling used in loader witnesses. -/
def demoToolBeta : ToolDefinition :=
  { name := "beta", description := "demo", version := "1.0.0", enabled := false,
    parameters := [], sandbox := defaultSandbox, instructions := "", path := "" }

/-- A descriptor set with one malformed entry (`none`) between two parsed
siblings, one enabled and one disabled. -/
def demoParsed : List (Option ToolDefinition) :=
  [some demoToolAlpha, none, some demoToolBeta]

/-- A manager with no sessions at all. -/
def emptyManager : ManagerState :=
  { base_workspace := "/tmp/sandbox_workspaces", now := 0, sessions := [],
    created_dirs := [], fs_files := [] }

/-! ## Lemmas about the generic helpers, the matcher and the screen -/

theorem alookup_aset_self {α : Type} (l : List (String × α)) (k : String) (v : α) :
    alookup (aset l k v) k = some v := by
  induction l with
  | nil => simp [aset, alookup]
  | cons hd tl ih =>
    obtain ⟨k0, v0⟩ := hd
    by_cases h : k0 = k
    · simp [aset, alookup, h]
    · simp [aset, alookup, h, ih]

theorem alookup_aset_ne {α : Type} (l : List (String × α)) (k k2 : String) (v : α)
    (h : k ≠ k2) : alookup (aset l k v) k2 = alookup l k2 := by
  induction l with
  | nil => simp [aset, alookup, h]
  | cons hd tl ih =>
    obtain ⟨k0, v0⟩ := hd
    by_cases h0 : k0 = k
    · subst h0
      simp [aset, alookup, h]
    · simp [aset, alookup, h0, ih]

theorem alookup_eq_none_of_not_mem {α : Type} (l : List (String × α)) (k : String)
    (h : k ∉ l.map Prod.fst) : alookup l k = none := by
  induction l with
  | nil => rfl
  | cons hd tl ih =>
    obtain ⟨k0, v0⟩ := hd
    simp only [List.map_cons, List.mem_cons, not_or] at h
    have h0 : k0 ≠ k := fun e => h.1 e.symm
    simp [alookup, h0, ih h.2]

theorem alookup_mem {α : Type} (l : List (String × α)) (k : String) (v : α)
    (h : alookup l k = some v) : (k, v) ∈ l := by
  induction l with
  | nil => simp [alookup] at h
  | cons hd tl ih =>
    obtain ⟨k0, v0⟩ := hd
    by_cases h0 : k0 = k
    · subst h0
      simp [alookup] at h
      subst h
      exact List.mem_cons_self _ _
    · simp only [alookup, if_neg h0] at h
      exact List.mem_cons_of_mem _ (ih h)

theorem aset_keys_nodup {α : Type} (l : List (String × α)) (k : String) (v : α)
    (h : (l.map Prod.fst).Nodup) : ((aset l k v).map Prod.fst).Nodup := by
  induction l with
  | nil => simp [aset]
  | cons hd tl ih =>
    obtain ⟨k0, v0⟩ := hd
    simp only [List.map_cons, List.nodup_cons] at h
    by_cases h0 : k0 = k
    · simp only [aset, if_pos h0, List.map_cons, List.nodup_cons]
      exact h
    · simp only [aset, if_neg h0, List.map_cons, List.nodup_cons]
      refine ⟨?_, ih h.2⟩
      intro hmem
      have : k0 ∈ tl.map Prod.fst ∨ k0 = k := by
        clear ih h
        induction tl with
        | nil =>
          simp [aset] at hmem
          exact Or.inr hmem
        | cons hd2 tl2 ih2 =>
          obtain ⟨k1, v1⟩ := hd2
          by_cases h1 : k1 = k
          · simp only [aset, if_pos h1, List.map_cons, List.mem_cons] at hmem ⊢
            exact Or.inl hmem
          · simp only [aset, if_neg h1, List.map_cons, List.mem_cons] at hmem
            rcases hmem with h2 | h2
            · exact Or.inl (by simp [h2])
            · rcases ih2 h2 with h3 | h3
              · exact Or.inl (List.mem_cons_of_mem _ h3)
              · exact Or.inr h3
      rcases this with h2 | h2
      · exact h.1 h2
      · exact h0 h2

theorem alookup_adel_self_of_nodup {α : Type} (l : List (String × α)) (k : String)
    (h : (l.map Prod.fst).Nodup) : alookup (adel l k) k = none := by
  induction l with
  | nil => rfl
  | cons hd tl ih =>
    obtain ⟨k0, v0⟩ := hd
    simp only [List.map_cons, List.nodup_cons] at h
    by_cases h0 : k0 = k
    · subst h0
      simp only [adel, if_pos rfl]
      exact alookup_eq_none_of_not_mem tl k0 h.1
    · simp [adel, alookup, h0, ih h.2]

theorem stripLit_eq_some {s l r : List Char} :
    stripLit s l = some r ↔ l = s ++ r := by
  induction s generalizing l with
  | nil => simp [stripLit]
  | cons a s2 ih =>
    cases l with
    | nil => simp [stripLit]
    | cons b l2 =>
      by_cases h : a = b
      · subst h
        simp [stripLit, ih]
      · simp [stripLit, h]
        intro h2
        exact fun _ => h h2.symm

theorem ciStrip_eq_some {s l r : List Char} :
    ciStrip s l = some r ↔ ∃ s2, l = s2 ++ r ∧ s2.map ciChar = s.map ciChar := by
  induction s generalizing l with
  | nil =>
    simp only [ciStrip, Option.some_inj, List.map_nil]
    constructor
    · rintro rfl
      exact ⟨[], rfl, by simp⟩
    · rintro ⟨s2, rfl, hmap⟩
      have : s2 = [] := by
        cases s2 with
        | nil => rfl
        | cons x xs => simp at hmap
      simp [this]
  | cons a s2 ih =>
    cases l with
    | nil =>
      simp only [ciStrip]
      constructor
      · intro h
        exact absurd h (by simp)
      · rintro ⟨t, ht, hmap⟩
        have : t = [] := by
          cases t with
          | nil => rfl
          | cons x xs => exact absurd ht (by simp)
        subst this
        simp at ht hmap
    | cons b l2 =>
      by_cases h : ciChar a = ciChar b
      · simp only [ciStrip, h, if_pos]
        rw [ih]
        constructor
        · rintro ⟨t, rfl, hmap⟩
          exact ⟨b :: t, rfl, by simp [hmap, h]⟩
        · rintro ⟨t, ht, hmap⟩
          cases t with
          | nil => simp at hmap
          | cons x xs =>
            simp only [List.cons_append, List.cons.injEq] at ht
            obtain ⟨rfl, rfl⟩ := ht
            simp only [List.map_cons, List.cons.injEq] at hmap
            exact ⟨xs, rfl, hmap.2⟩
      · simp only [ciStrip, h, if_neg, not_false_iff]
        constructor
        · intro hfalse
          exact absurd hfalse (by simp)
        · rintro ⟨t, ht, hmap⟩
          cases t with
          | nil => simp at hmap
          | cons x xs =>
            simp only [List.cons_append, List.cons.injEq] at ht
            obtain ⟨rfl, rfl⟩ := ht
            simp only [List.map_cons, List.cons.injEq] at hmap
            exact absurd hmap.1.symm h

theorem toksMatch_iff (ts : List Tok) : ∀ l, toksMatch ts l = true ↔ Matches ts l := by
  induction ts with
  | nil => intro l; simp [toksMatch, Matches]
  | cons t ts ih =>
    intro l
    cases t with
    | lit s =>
      cases hs : stripLit s l with
      | some r =>
        have hl : l = s ++ r := stripLit_eq_some.mp hs
        simp only [toksMatch, hs, Matches]
        rw [ih r]
        constructor
        · intro hm
          exact ⟨r, hl, hm⟩
        · rintro ⟨r2, hl2, hm⟩
          have : r2 = r := by
            have h2 : s ++ r2 = s ++ r := hl2.symm.trans hl
            exact List.append_cancel_left h2
          subst this
          exact hm
      | none =>
        simp only [toksMatch, hs, Matches]
        constructor
        · intro h
          exact absurd h (by simp)
        · rintro ⟨r2, hl2, _⟩
          rw [stripLit_eq_some.mpr hl2] at hs
          exact absurd hs (by simp)
    | litCI s =>
      cases hs : ciStrip s l with
      | some r =>
        obtain ⟨s2, hl, hmap⟩ := ciStrip_eq_some.mp hs
        simp only [toksMatch, hs, Matches]
        rw [ih r]
        constructor
        · intro hm
          exact ⟨s2, r, hl, hmap, hm⟩
        · rintro ⟨s3, r2, hl2, hmap2, hm⟩
          have hlen : s3.length = s2.length := by
            have e1 : s3.length = s.length := by
              have := congrArg List.length hmap2
              simpa using this
            have e2 : s2.length = s.length := by
              have := congrArg List.length hmap
              simpa using this
            rw [e1, e2]
          have : r2 = r := by
            have h2 : s3 ++ r2 = s2 ++ r := hl2.symm.trans hl
            exact List.append_inj_right h2 hlen
          subst this
          exact hm
      | none =>
        simp only [toksMatch, hs, Matches]
        constructor
        · intro h
          exact absurd h (by simp)
        · rintro ⟨s3, r2, hl2, hmap2, _⟩
          have : ciStrip s l = some r2 := ciStrip_eq_some.mpr ⟨s3, hl2, hmap2⟩
          rw [this] at hs
          exact absurd hs (by simp)
    | cls p =>
      cases l with
      | nil =>
        simp [toksMatch, Matches]
      | cons c r =>
        simp only [toksMatch, Matches, Bool.and_eq_true]
        rw [ih r]
        constructor
        · rintro ⟨hp, hm⟩
          exact ⟨c, r, rfl, hp, hm⟩
        · rintro ⟨c2, r2, hl, hp, hm⟩
          cases hl
          exact ⟨hp, hm⟩
    | star p =>
      simp only [toksMatch, Matches, List.any_eq_true, List.mem_range, Bool.and_eq_true]
      constructor
      · rintro ⟨k, _, hall, hm⟩
        refine ⟨l.take k, l.drop k, (List.take_append_drop k l).symm, ?_, (ih _).mp hm⟩
        intro c hc
        exact List.all_eq_true.mp hall c hc
      · rintro ⟨w, r, rfl, hall, hm⟩
        refine ⟨w.length, ?_, ?_, ?_⟩
        · simp [Nat.lt_succ_iff]
        · rw [List.take_left]
          exact List.all_eq_true.mpr hall
        · rw [List.drop_left]
          exact (ih r).mpr hm
    | plus p =>
      simp only [toksMatch, Matches, List.any_eq_true, List.mem_range, Bool.and_eq_true,
        decide_eq_true_eq]
      constructor
      · rintro ⟨k, _, ⟨hk, hall⟩, hm⟩
        refine ⟨l.take k, l.drop k, (List.take_append_drop k l).symm, ?_, ?_, (ih _).mp hm⟩
        · intro he
          have : (l.take k).length = 0 := by rw [he]; rfl
          simp only [List.length_take] at this
          omega
        · intro c hc
          exact List.all_eq_true.mp hall c hc
      · rintro ⟨w, r, rfl, hne, hall, hm⟩
        refine ⟨w.length, ?_, ⟨?_, ?_⟩, ?_⟩
        · simp [Nat.lt_succ_iff]
        · cases w with
          | nil => exact absurd rfl hne
          | cons a b => simp
        · rw [List.take_left]
          exact List.all_eq_true.mpr hall
        · rw [List.drop_left]
          exact (ih r).mpr hm

theorem searchTok_iff (ts : List Tok) (l : List Char) :
    searchTok ts l = true ↔ SearchHit ts l := by
  simp only [searchTok, SearchHit, List.any_eq_true, List.mem_range]
  constructor
  · rintro ⟨i, _, hm⟩
    exact ⟨l.take i, l.drop i, (List.take_append_drop i l).symm, (toksMatch_iff ts _).mp hm⟩
  · rintro ⟨pre, suf, rfl, hm⟩
    refine ⟨pre.length, ?_, ?_⟩
    · simp [Nat.lt_succ_iff]
    · rw [List.drop_left]
      exact (toksMatch_iff ts suf).mpr hm

theorem containsSub_iff (n h : List Char) :
    containsSub n h = true ↔ ∃ p s, h = p ++ n ++ s := by
  rw [containsSub, searchTok_iff]
  constructor
  · rintro ⟨pre, suf, rfl, r, rfl, -⟩
    exact ⟨pre, r, by simp [List.append_assoc]⟩
  · rintro ⟨p, s, rfl⟩
    exact ⟨p, n ++ s, by simp [List.append_assoc], s, rfl, trivial⟩

theorem importHit_iff (d : String) (code : List Char) :
    importHit d code = true ↔
      (∃ p s, code = p ++ d.toList ++ s) ∧
        (SearchHit (impPat d) code ∨ SearchHit (fromPat d) code ∨
          SearchHit (dynPat d) code) := by
  simp [importHit, Bool.and_eq_true, Bool.or_eq_true, searchTok_iff, containsSub_iff,
    or_assoc, List.append_assoc]

theorem findBlockedImport_some_mem {ds : List String} {code : List Char} {d : String}
    (h : findBlockedImport ds code = some d) : d ∈ ds ∧ importHit d code = true := by
  induction ds with
  | nil => simp [findBlockedImport] at h
  | cons d0 ds ih =>
    by_cases h0 : importHit d0 code = true
    · simp only [findBlockedImport, if_pos h0, Option.some_inj] at h
      subst h
      exact ⟨List.mem_cons_self _ _, h0⟩
    · simp only [findBlockedImport, if_neg h0] at h
      obtain ⟨hm, hh⟩ := ih h
      exact ⟨List.mem_cons_of_mem _ hm, hh⟩

theorem findBlockedImport_none_all {ds : List String} {code : List Char}
    (h : findBlockedImport ds code = none) : ∀ d ∈ ds, importHit d code = false := by
  induction ds with
  | nil => intro d hd; simp at hd
  | cons d0 ds ih =>
    by_cases h0 : importHit d0 code = true
    · simp [findBlockedImport, h0] at h
    · simp only [findBlockedImport, if_neg h0] at h
      intro d hd
      rcases List.mem_cons.mp hd with rfl | hd2
      · exact Bool.not_eq_true _ ▸ (by simpa using h0)
      · exact ih h d hd2

/-! ## Helper lemmas about the embeddings -/

theorem first_missing_required_isSome {params : List ToolParameter}
    {argNames : List String}
    (h : ∃ p ∈ params, p.required = true ∧ argNames.contains p.name = false) :
    ∃ q, first_missing_required params argNames = some q := by
  induction params with
  | nil => simp at h
  | cons p ps ih =>
    show ∃ q, (if p.required && !(argNames.contains p.name) then some p.name
               else first_missing_required ps argNames) = some q
    by_cases hc : (p.required && !(argNames.contains p.name)) = true
    · rw [if_pos hc]
      exact ⟨p.name, rfl⟩
    · rw [if_neg hc]
      obtain ⟨q, hq, hreq, hmem⟩ := h
      rcases List.mem_cons.mp hq with rfl | hq2
      · refine absurd ?_ hc
        rw [hreq, hmem]
        rfl
      · exact ih ⟨q, hq2, hreq, hmem⟩

theorem to_openai_params_aux (params : List ToolParameter)
    (props : List (String × OpenAIProp)) (req : List String) :
    (params.foldl
      (fun acc param =>
        (aset acc.1 param.name (mkOpenAIProp param),
         if param.required then acc.2 ++ [param.name] else acc.2))
      (props, req)).2 =
    req ++ (params.filter (fun p => p.required)).map (fun p => p.name) := by
  induction params generalizing props req with
  | nil => simp
  | cons p ps ih =>
    by_cases hr : p.required = true
    · simp only [List.foldl_cons, hr, if_pos, List.filter_cons_of_pos, List.map_cons]
      rw [ih]
      simp
    · have hr2 : p.required = false := by
        cases hp : p.required
        · rfl
        · exact absurd hp hr
      simp only [List.foldl_cons, hr2, Bool.false_eq_true, if_false]
      rw [ih]
      simp [List.filter_cons, hr2]

theorem load_all_from_sound (parsed : List (Option ToolDefinition)) :
    ∀ acc n t2, alookup (load_all_from parsed acc) n = some t2 →
      alookup acc n = some t2 ∨
        (some t2 ∈ parsed ∧ t2.enabled = true ∧ t2.name = n) := by
  induction parsed with
  | nil =>
    intro acc n t2 h
    exact Or.inl h
  | cons po rest ih =>
    intro acc n t2 h
    cases po with
    | none =>
      rcases ih _ n t2 h with h2 | h2
      · exact Or.inl h2
      · exact Or.inr ⟨List.mem_cons_of_mem _ h2.1, h2.2⟩
    | some t =>
      by_cases he : t.enabled = true
      · simp only [load_all_from, he, if_pos] at h
        rcases ih _ n t2 h with h2 | h2
        · by_cases hn : t.name = n
          · subst hn
            rw [alookup_aset_self] at h2
            have : t2 = t := by injection h2.symm
            subst this
            exact Or.inr ⟨List.mem_cons_self _ _, he, rfl⟩
          · rw [alookup_aset_ne _ _ _ _ hn] at h2
            exact Or.inl h2
        · exact Or.inr ⟨List.mem_cons_of_mem _ h2.1, h2.2⟩
      · have he2 : t.enabled = false := by
          cases hp : t.enabled
          · rfl
          · exact absurd hp he
        simp only [load_all_from, he2, Bool.false_eq_true, if_false] at h
        rcases ih _ n t2 h with h2 | h2
        · exact Or.inl h2
        · exact Or.inr ⟨List.mem_cons_of_mem _ h2.1, h2.2⟩

theorem load_all_from_complete (parsed : List (Option ToolDefinition)) :
    ∀ acc k, ((alookup acc k).isSome = true ∨
        ∃ t, some t ∈ parsed ∧ t.enabled = true ∧ t.name = k) →
      (alookup (load_all_from parsed acc) k).isSome = true := by
  induction parsed with
  | nil =>
    intro acc k h
    rcases h with h | ⟨t, hm, -, -⟩
    · exact h
    · simp at hm
  | cons po rest ih =>
    intro acc k h
    cases po with
    | none =>
      refine ih _ k ?_
      rcases h with h | ⟨t, hm, he, hn⟩
      · exact Or.inl h
      · rcases List.mem_cons.mp hm with h2 | h2
        · exact absurd h2 (by simp)
        · exact Or.inr ⟨t, h2, he, hn⟩
    | some t0 =>
      by_cases he0 : t0.enabled = true
      · simp only [load_all_from, he0, if_pos]
        refine ih _ k ?_
        rcases h with h | ⟨t, hm, he, hn⟩
        · by_cases hk : t0.name = k
          · subst hk
            exact Or.inl (by simp [alookup_aset_self])
          · rw [alookup_aset_ne _ _ _ _ hk]
            exact Or.inl h
        · rcases List.mem_cons.mp hm with h2 | h2
          · have : t0 = t := by injection h2.symm
            subst this
            subst hn
            exact Or.inl (by simp [alookup_aset_self])
          · exact Or.inr ⟨t, h2, he, hn⟩
      · have he2 : t0.enabled = false := by
          cases hp : t0.enabled
          · rfl
          · exact absurd hp he0
        simp only [load_all_from, he2, Bool.false_eq_true, if_false]
        refine ih _ k ?_
        rcases h with h | ⟨t, hm, he, hn⟩
        · exact Or.inl h
        · rcases List.mem_cons.mp hm with h2 | h2
          · have : t0 = t := by injection h2.symm
            subst this
            exact absurd he (by simp [he2])
          · exact Or.inr ⟨t, h2, he, hn⟩

/-! ## Claim theorems -/

/-- C10: for every code string and every language other than `"python"`
(including `"bash"` and `"node"` submitted to the interpretable-code
execution tool), the pre-execution security screen returns allowed with an
empty reason, so such code is never blocked by the screen regardless of its
content. -/
theorem c10_nonpython_never_blocked (code language : String)
    (h : language ≠ "python") : check_dangerous_code code language = (true, "") := by
  simp [check_dangerous_code, h]

theorem c10_witness :
    ("bash" : String) ≠ "python" ∧
      check_dangerous_code "import subprocess; eval(input())" "bash" = (true, "") :=
  ⟨by decide, c10_nonpython_never_blocked "import subprocess; eval(input())" "bash"
    (by decide)⟩

/-- C5: for every tool definition, the `required` list of the emitted
function-calling descriptor equals, in order, the names of exactly those
parameters of the tool whose required flag is true. -/
theorem c5_required_list_exact (t : ToolDefinition) :
    (to_openai_tool t).required =
      (t.parameters.filter (fun p => p.required)).map (fun p => p.name) := by
  have h := to_openai_params_aux t.parameters [] []
  simpa [to_openai_tool, to_openai_params] using h

/-- C3: for every tool and every argument map lacking at least one parameter
marked required in the tool's definition, invoking the tool returns a
400 error and the launch counter is untouched: no execution environment is
created (neither the executor nor the storage dispatcher runs). -/
theorem c3_missing_required_no_launch
    (tools : List (String × ToolDefinition)) (toolName : String)
    (args : List (String × String))
    (runStorage : List (String × String) → Bool × String × String)
    (runExec : ToolDefinition → List (String × String) → ExecutionResult)
    (launches : Nat) (tool : ToolDefinition)
    (hfound : alookup tools toolName = some tool)
    (hmiss : ∃ p ∈ tool.parameters, p.required = true ∧
      (args.map Prod.fst).contains p.name = false) :
    (∃ pname,
      (execute_tool tools toolName args runStorage runExec launches).1 =
        ServerResponse.httpError 400 ("Missing required parameter: " ++ pname)) ∧
    (execute_tool tools toolName args runStorage runExec launches).2 = launches := by
  obtain ⟨q, hq⟩ := first_missing_required_isSome hmiss
  refine ⟨⟨q, ?_⟩, ?_⟩
  · simp [execute_tool, hfound, hq]
  · simp [execute_tool, hfound, hq]

theorem c3_witness :
    alookup [("code_execution", codeExecutionTool)] "code_execution" =
      some codeExecutionTool ∧
    (∃ pname,
      (execute_tool [("code_execution", codeExecutionTool)] "code_execution" []
        (fun _ => (false, "", "")) (fun _ _ => ⟨false, "", "", 0, ""⟩) 0).1 =
        ServerResponse.httpError 400 ("Missing required parameter: " ++ pname)) ∧
    (execute_tool [("code_execution", codeExecutionTool)] "code_execution" []
      (fun _ => (false, "", "")) (fun _ _ => ⟨false, "", "", 0, ""⟩) 0).2 = 0 := by
  refine ⟨by decide, ?_⟩
  exact c3_missing_required_no_launch [("code_execution", codeExecutionTool)]
    "code_execution" [] (fun _ => (false, "", "")) (fun _ _ => ⟨false, "", "", 0, ""⟩) 0
    codeExecutionTool (by decide)
    ⟨{ name := "code", type := "string", required := true, description := "",
       default := none, enum := none }, by decide, rfl, rfl⟩

/-- C4: for every invocation whose isolated environment exits normally,
`execute` returns success true iff the exit code is 0, and on the success
path the captured stdout and stderr are exactly the two independently read
log streams, never merged or concatenated. -/
theorem c4_normal_exit_streams
    (buildFileAnalysis buildWebFetch : List (String × String) → String)
    (tool : ToolDefinition) (args : List (String × String)) (w : WaitOutcome)
    (t : Nat) (eid : String)
    (hsafe : ¬ (tool.name = "code_execution" ∧
      (check_dangerous_code (argGet args "code" "")
        (argGet args "language" "python")).1 = false))
    (hcmd : ∃ cmd, build_command buildFileAnalysis buildWebFetch tool args =
      Except.ok cmd) :
    ((executeRun buildFileAnalysis buildWebFetch tool args (RunOutcome.waited w)
        t eid).success = true ↔ w.exitCode = 0) ∧
    (w.exitCode = 0 →
      (executeRun buildFileAnalysis buildWebFetch tool args (RunOutcome.waited w)
        t eid).output = w.stdoutLog ∧
      (executeRun buildFileAnalysis buildWebFetch tool args (RunOutcome.waited w)
        t eid).error = w.stderrLog) := by
  obtain ⟨cmd, hc⟩ := hcmd
  by_cases hz : w.exitCode = 0
  · simp [executeRun, hsafe, hc, resultOfWait, hz]
  · simp [executeRun, hsafe, hc, resultOfWait, hz]

theorem c4_witness :
    (¬ (codeExecutionTool.name = "code_execution" ∧
      (check_dangerous_code (argGet [("code", "print(1)")] "code" "")
        (argGet [("code", "print(1)")] "language" "python")).1 = false)) ∧
    ((executeRun (fun _ => "") (fun _ => "") codeExecutionTool
        [("code", "print(1)")] (RunOutcome.waited ⟨0, "1\n", "warning"⟩) 1 "id").success
        = true ↔ (⟨0, "1\n", "warning"⟩ : WaitOutcome).exitCode = 0) ∧
    ((⟨0, "1\n", "warning"⟩ : WaitOutcome).exitCode = 0 →
      (executeRun (fun _ => "") (fun _ => "") codeExecutionTool
        [("code", "print(1)")] (RunOutcome.waited ⟨0, "1\n", "warning"⟩) 1 "id").output
        = "1\n" ∧
      (executeRun (fun _ => "") (fun _ => "") codeExecutionTool
        [("code", "print(1)")] (RunOutcome.waited ⟨0, "1\n", "warning"⟩) 1 "id").error
        = "warning") := by
  refine ⟨by decide, ?_⟩
  exact c4_normal_exit_streams (fun _ => "") (fun _ => "") codeExecutionTool
    [("code", "print(1)")] ⟨0, "1\n", "warning"⟩ 1 "id" (by decide)
    ⟨["python3", "-c", "print(1)"], rfl⟩

/-- C8: for every set of parsed descriptors, `load_all` returns a map with an
entry for the name of every well-formed enabled descriptor — malformed
siblings (parsed to `none`) never prevent this — and every entry of the map
comes from a well-formed enabled descriptor (disabled and malformed ones are
excluded). -/
theorem c8_load_all_isolation (parsed : List (Option ToolDefinition)) :
    (∀ t, some t ∈ parsed → t.enabled = true →
      ∃ t2, alookup (load_all parsed) t.name = some t2 ∧ some t2 ∈ parsed ∧
        t2.enabled = true ∧ t2.name = t.name) ∧
    (∀ n t2, alookup (load_all parsed) n = some t2 →
      some t2 ∈ parsed ∧ t2.enabled = true ∧ t2.name = n) := by
  constructor
  · intro t hm he
    have h1 := load_all_from_complete parsed [] t.name (Or.inr ⟨t, hm, he, rfl⟩)
    obtain ⟨t2, ht2⟩ := Option.isSome_iff_exists.mp h1
    rcases load_all_from_sound parsed [] t.name t2 ht2 with h3 | h3
    · exact absurd h3 (by simp [alookup])
    · exact ⟨t2, ht2, h3⟩
  · intro n t2 h
    rcases load_all_from_sound parsed [] n t2 h with h3 | h3
    · exact absurd h3 (by simp [alookup])
    · exact h3

theorem c8_witness :
    ∃ t2, alookup (load_all demoParsed) demoToolAlpha.name = some t2 ∧
      some t2 ∈ demoParsed ∧ t2.enabled = true ∧ t2.name = demoToolAlpha.name :=
  (c8_load_all_isolation demoParsed).1 demoToolAlpha (by simp [demoParsed]) rfl

/-- C7: for every manager state with well-formed (duplicate-free) namespace
maps, `kv_get` immediately after `kv_set` of `(ns, key, value)` returns
exactly that value, and `kv_get` after `kv_delete` of the same key returns
the distinguishable not-found outcome `none` (not an empty string). -/
theorem c7_kv_roundtrip (st : ManagerState) (sid key value ns : String)
    (hwf : ∀ q ∈ st.sessions, ∀ r ∈ q.2.data, (r.2.map Prod.fst).Nodup) :
    (kv_get (kv_set st sid key value ns).2 sid key ns).1 = some value ∧
    (kv_get (kv_delete (kv_set st sid key value ns).2 sid key ns).2 sid key ns).1 =
      none := by
  have hnod : ((((alookup (get_or_create_session st sid).1.data ns).getD []).map
      Prod.fst)).Nodup := by
    cases hs : alookup st.sessions sid with
    | some s =>
      have hmem := alookup_mem _ _ _ hs
      have hdata := hwf (sid, s) hmem
      cases hns : alookup s.data ns with
      | some m =>
        have := hdata (ns, m) (alookup_mem _ _ _ hns)
        simp [get_or_create_session, hs, hns]
        exact this
      | none => simp [get_or_create_session, hs, hns]
    | none =>
      cases hns : alookup ([("default", ([] : List (String × String)))]) ns with
      | some m =>
        have : m = [] := by
          by_cases hd : ("default" : String) = ns
          · simp [alookup, hd] at hns
            exact hns
          · simp [alookup, hd] at hns
        simp [get_or_create_session, hs, hns, this]
      | none => simp [get_or_create_session, hs, hns]
  set s := (get_or_create_session st sid).1 with hs_def
  set st1 := (get_or_create_session st sid).2 with hst1_def
  set nsmap := (alookup s.data ns).getD [] with hnsmap_def
  set inner := aset nsmap key value with hinner_def
  set s2 : SessionData := { s with data := aset s.data ns inner } with hs2_def
  have hset : (kv_set st sid key value ns).2 =
      { st1 with sessions := aset st1.sessions sid s2 } := rfl
  have hget1 : (kv_get (kv_set st sid key value ns).2 sid key ns).1 = some value := by
    rw [hset]
    show (alookup ((alookup ((get_or_create_session
      { st1 with sessions := aset st1.sessions sid s2 } sid).1).data ns).getD []) key)
      = some value
    have hlook : alookup (aset st1.sessions sid s2) sid = some s2 :=
      alookup_aset_self _ _ _
    simp only [get_or_create_session, hlook]
    show alookup ((alookup s2.data ns).getD []) key = some value
    have : alookup s2.data ns = some inner := by
      rw [hs2_def]
      exact alookup_aset_self _ _ _
    rw [this]
    exact alookup_aset_self _ _ _
  refine ⟨hget1, ?_⟩
  have hinner_nodup : (inner.map Prod.fst).Nodup := aset_keys_nodup _ _ _ hnod
  set s3 : SessionData := { s2 with data := aset s2.data ns (adel inner key) }
    with hs3_def
  have hdel : (kv_delete (kv_set st sid key value ns).2 sid key ns).2 =
      { st1 with sessions := aset (aset st1.sessions sid s2) sid s3 } := by
    rw [hset]
    have hlook : alookup (aset st1.sessions sid s2) sid = some s2 :=
      alookup_aset_self _ _ _
    show (kv_delete { st1 with sessions := aset st1.sessions sid s2 } sid key ns).2 = _
    have hns2 : alookup s2.data ns = some inner := by
      rw [hs2_def]
      exact alookup_aset_self _ _ _
    have hkey : alookup inner key = some value := alookup_aset_self _ _ _
    simp only [kv_delete, get_or_create_session, hlook, hns2, hkey]
  rw [hdel]
  show (alookup ((alookup ((get_or_create_session _ sid).1).data ns).getD []) key) = none
  have hlook2 : alookup (aset (aset st1.sessions sid s2) sid s3) sid = some s3 :=
    alookup_aset_self _ _ _
  simp only [get_or_create_session, hlook2]
  show alookup ((alookup (aset s2.data ns (adel inner key)) ns).getD []) key = none
  rw [alookup_aset_self]
  show alookup (adel inner key) key = none
  exact alookup_adel_self_of_nodup _ _ hinner_nodup

theorem c7_witness :
    (∀ q ∈ emptyManager.sessions, ∀ r ∈ q.2.data, (r.2.map Prod.fst).Nodup) ∧
    (kv_get (kv_set emptyManager "s1" "k" "v" "ns").2 "s1" "k" "ns").1 = some "v" ∧
    (kv_get (kv_delete (kv_set emptyManager "s1" "k" "v" "ns").2 "s1" "k" "ns").2
      "s1" "k" "ns").1 = none := by
  refine ⟨by simp [emptyManager], ?_, ?_⟩
  · exact (c7_kv_roundtrip emptyManager "s1" "k" "v" "ns" (by simp [emptyManager])).1
  · exact (c7_kv_roundtrip emptyManager "s1" "k" "v" "ns" (by simp [emptyManager])).2

/-- C9 counterexample: `get_session_info` is not read-only for an id that has
no session — it creates the session entry and its workspace directory, because
the source begins with `get_or_create_session`. -/
theorem c9_counterexample :
    alookup emptyManager.sessions "sess1" = none ∧
    (get_session_info emptyManager "sess1").2 ≠ emptyManager ∧
    alookup ((get_session_info emptyManager "sess1").2).sessions "sess1" ≠ none ∧
    ((get_session_info emptyManager "sess1").2).created_dirs =
      ["/tmp/sandbox_workspaces/sess1"] := by decide

/-- C9 (amended): `get_session_info` returns the diagnostic record and leaves
the state unchanged for an id that already has a session; for an id with no
session it first gets-or-creates an empty session (adding a session entry and
a workspace directory and touching nothing else) and reports on that fresh
session. -/
theorem c9_session_info_get_or_create (st : ManagerState) (sid : String) :
    (∀ s, alookup st.sessions sid = some s →
      (get_session_info st sid).2 = st ∧
      (get_session_info st sid).1.created_at = s.created_at ∧
      (get_session_info st sid).1.namespaces = s.data.map Prod.fst ∧
      (get_session_info st sid).1.kv_keys_count =
        (s.data.map (fun q => q.2.length)).sum ∧
      (get_session_info st sid).1.kv_storage_bytes =
        (s.data.map (fun q => (q.2.map (fun kv => kv.2.length)).sum)).sum) ∧
    (alookup st.sessions sid = none →
      ((get_session_info st sid).2).sessions =
        aset st.sessions sid
          { created_at := st.now, workspace_dir := pjoin st.base_workspace sid,
            data := [("default", [])], db_path := none } ∧
      ((get_session_info st sid).2).created_dirs =
        st.created_dirs ++ [pjoin st.base_workspace sid] ∧
      ((get_session_info st sid).2).fs_files = st.fs_files ∧
      ((get_session_info st sid).2).base_workspace = st.base_workspace ∧
      (get_session_info st sid).1.namespaces = ["default"] ∧
      (get_session_info st sid).1.kv_keys_count = 0 ∧
      (get_session_info st sid).1.has_database = false) := by
  constructor
  · intro s hs
    simp [get_session_info, get_or_create_session, hs]
  · intro hs
    simp [get_session_info, get_or_create_session, hs]

theorem c9_witness :
    alookup emptyManager.sessions "sess2" = none ∧
    ((get_session_info emptyManager "sess2").2).sessions =
      aset emptyManager.sessions "sess2"
        { created_at := emptyManager.now,
          workspace_dir := pjoin emptyManager.base_workspace "sess2",
          data := [("default", [])], db_path := none } ∧
    ((get_session_info emptyManager "sess2").2).created_dirs =
      emptyManager.created_dirs ++ [pjoin emptyManager.base_workspace "sess2"] ∧
    ((get_session_info emptyManager "sess2").2).fs_files = emptyManager.fs_files ∧
    ((get_session_info emptyManager "sess2").2).base_workspace =
      emptyManager.base_workspace ∧
    (get_session_info emptyManager "sess2").1.namespaces = ["default"] ∧
    (get_session_info emptyManager "sess2").1.kv_keys_count = 0 ∧
    (get_session_info emptyManager "sess2").1.has_database = false :=
  ⟨rfl, (c9_session_info_get_or_create emptyManager "sess2").2 rfl⟩

/-- C6 counterexample: on an engine failure `db_query` returns the structured
error but the connection that was opened for the call is never closed — the
source has no `finally` and the `except` branch returns directly. -/
theorem c6_counterexample :
    db_query_run (Except.ok ()) (fun _ => Except.error "syntax error") "NOT SQL" =
      (DbResult.err "syntax error", [DbEvent.opened]) ∧
    DbEvent.closed ∉ [DbEvent.opened] := by decide

/-- C6 (amended): for every session and SQL string, `db_query` returns a
structured result — columns/row mappings/row count for SELECT-shaped
statements, affected-row count otherwise, a structured error on engine
failure — and never propagates an exception; the connection is closed before
returning on the success paths, but on the engine-failure path the structured
error is returned with the connection left open. -/
theorem c6_db_query_shape (connect : Except String Unit)
    (engine : String → Except String EngineOut) (sql : String) :
    (∀ e, connect = Except.error e →
      db_query_run connect engine sql = (DbResult.err e, [])) ∧
    (∀ e, connect = Except.ok () → engine sql = Except.error e →
      db_query_run connect engine sql = (DbResult.err e, [DbEvent.opened]) ∧
      DbEvent.closed ∉ (db_query_run connect engine sql).2) ∧
    (∀ out, connect = Except.ok () → engine sql = Except.ok out →
      isSelectSql sql = false →
      db_query_run connect engine sql =
        (DbResult.execOk out.rowcount, [DbEvent.opened, DbEvent.closed])) ∧
    (∀ out cols, connect = Except.ok () → engine sql = Except.ok out →
      isSelectSql sql = true → out.description = some cols →
      db_query_run connect engine sql =
        (DbResult.selectOk cols (out.rows.map (fun row => cols.zip row))
          out.rows.length, [DbEvent.opened, DbEvent.closed])) := by
  refine ⟨?_, ?_, ?_, ?_⟩
  · rintro e rfl
    rfl
  · rintro e rfl he
    have h1 : db_query_run (Except.ok ()) engine sql =
        (DbResult.err e, [DbEvent.opened]) := by
      simp [db_query_run, he]
    refine ⟨h1, ?_⟩
    rw [h1]
    intro hmem
    simp at hmem
  · rintro out rfl he hsel
    simp [db_query_run, he, hsel]
  · rintro out cols rfl he hsel hdesc
    simp [db_query_run, he, hsel, hdesc]

theorem c6_witness :
    db_query_run (Except.ok ())
      (fun _ => Except.ok ⟨none, [], 3⟩) "UPDATE t SET a = 1" =
      (DbResult.execOk 3, [DbEvent.opened, DbEvent.closed]) :=
  (c6_db_query_shape (Except.ok ()) (fun _ => Except.ok ⟨none, [], 3⟩)
    "UPDATE t SET a = 1").2.2.1 ⟨none, [], 3⟩ rfl rfl (by decide)

/-- C1 counterexample: the path `"../s1x"` contains a parent-directory
segment, yet `file_write` accepts it — no invalid-path error — and resolves
it to `/tmp/sandbox_workspaces/s1x`, a sibling of the workspace root
`/tmp/sandbox_workspaces/s1` (not equal to it and not under it), so the
write and the directory creation land outside the workspace.  The
`startswith` check in `_safe_path` compares raw string prefixes without
requiring a separator boundary. -/
theorem c1_counterexample :
    safe_path "/tmp/sandbox_workspaces/s1" "../s1x" =
      some "/tmp/sandbox_workspaces/s1x" ∧
    (file_write_ws "/tmp/sandbox_workspaces/s1" "../s1x" "data").1 =
      FileWriteOut.ok "../s1x" 4 ∧
    stripLit "/tmp/sandbox_workspaces/s1/".toList
      "/tmp/sandbox_workspaces/s1x".toList = none ∧
    ("/tmp/sandbox_workspaces/s1x" : String) ≠ "/tmp/sandbox_workspaces/s1" ∧
    (file_write_ws "/tmp/sandbox_workspaces/s1" "../s1x" "data").2 =
      [FsEvent.mkdirs "/tmp/sandbox_workspaces",
       FsEvent.writeFile "/tmp/sandbox_workspaces/s1x" "data"] := by decide

/-- C1 (amended): `file_write`, `file_read` and `file_list` return the
invalid-path error exactly when the normalized join of the workspace with the
separator-stripped path does not have the normalized workspace string as a
prefix; on rejection they perform no filesystem access at all; and every
accepted non-empty path resolves to a target having the normalized workspace
as a string prefix — which, per the counterexample, does not imply the target
lies inside the workspace directory, and neither parent segments nor a
leading separator are categorically rejected. -/
theorem c1_path_confinement (ws p : String) :
    (safe_path ws p = none ↔
      p ≠ "" ∧ stripLit (normpathL ws.toList)
        (normpathL (pjoinL ws.toList (lstripSlashL p.toList))) = none) ∧
    (safe_path ws p = none →
      ∀ content fs de scan,
        (file_write_ws ws p content).1 = FileWriteOut.err "Invalid path" ∧
        (file_write_ws ws p content).2 = [] ∧
        (file_read_ws fs ws p).1 = FileReadOut.err "Invalid path" ∧
        (file_read_ws fs ws p).2 = [] ∧
        (file_list_ws de scan ws p).1 = FileListOut.err "Invalid path" ∧
        (file_list_ws de scan ws p).2 = []) ∧
    (∀ r, safe_path ws p = some r → p ≠ "" →
      ∃ rest, r.toList = normpathL ws.toList ++ rest) := by
  refine ⟨?_, ?_, ?_⟩
  · by_cases hp : p = ""
    · simp [safe_path, hp]
    · simp only [safe_path, if_neg hp]
      cases hstrip : stripLit (normpathL ws.toList)
          (normpathL (pjoinL ws.toList (lstripSlashL p.toList))) with
      | some rest => simp [hstrip, hp]
      | none => simp [hstrip, hp]
  · intro h content fs de scan
    simp [file_write_ws, file_read_ws, file_list_ws, h]
  · intro r hr hp
    simp only [safe_path, if_neg hp] at hr
    cases hstrip : stripLit (normpathL ws.toList)
        (normpathL (pjoinL ws.toList (lstripSlashL p.toList))) with
    | none =>
      rw [hstrip] at hr
      simp at hr
    | some rest =>
      rw [hstrip] at hr
      simp only [Option.isSome_some, if_pos, Option.some_inj] at hr
      refine ⟨rest, ?_⟩
      rw [← hr]
      exact stripLit_eq_some.mp hstrip

theorem c1_witness :
    safe_path "/tmp/sandbox_workspaces/s1" "../../etc/passwd" = none ∧
    (file_write_ws "/tmp/sandbox_workspaces/s1" "../../etc/passwd" "x").1 =
      FileWriteOut.err "Invalid path" ∧
    (file_write_ws "/tmp/sandbox_workspaces/s1" "../../etc/passwd" "x").2 = [] ∧
    (file_read_ws [] "/tmp/sandbox_workspaces/s1" "../../etc/passwd").1 =
      FileReadOut.err "Invalid path" ∧
    (file_read_ws [] "/tmp/sandbox_workspaces/s1" "../../etc/passwd").2 = [] ∧
    (file_list_ws (fun _ => false) (fun _ => ([], []))
      "/tmp/sandbox_workspaces/s1" "../../etc/passwd").1 =
      FileListOut.err "Invalid path" ∧
    (file_list_ws (fun _ => false) (fun _ => ([], []))
      "/tmp/sandbox_workspaces/s1" "../../etc/passwd").2 = [] := by
  have h := (c1_path_confinement "/tmp/sandbox_workspaces/s1" "../../etc/passwd").2.1
    (by decide) "x" [] (fun _ => false) (fun _ => ([], []))
  exact ⟨by decide, h.1, h.2.1, h.2.2.1, h.2.2.2.1, h.2.2.2.2.1, h.2.2.2.2.2⟩

/-- C2 counterexample: in the code `"import socketserver"` the denylisted
name `socket` occurs only as a prefix of the longer identifier
`socketserver` (second conjunct: every occurrence of `socket` is immediately
followed by `server`), yet the screen blocks it, because the import regex is
not anchored at the end of the module name. -/
theorem c2_counterexample :
    check_dangerous_code "import socketserver" "python" =
      (false, "Blocked import: socket") ∧
    ((List.range ("import socketserver".toList.length + 1)).all fun i =>
      match stripLit "socket".toList ("import socketserver".toList.drop i) with
      | some r => (stripLit "server".toList r).isSome
      | none => true) = true := by decide

/-- C2 (amended): for `"python"` the screen blocks exactly the code that
contains a denylisted name as a substring and matches one of the three
statement-shaped regexes for it (plain import, from-import, dynamic
import-by-string — each matching the name as a prefix at that position, so a
longer identifier beginning with a denylisted name in import position is
also blocked), or that matches the second pattern set (dynamic
evaluation/compilation, reflective builtin access, filesystem open in write
mode) anywhere as a substring, case-insensitively. -/
theorem c2_screen_characterization (code : String) :
    (check_dangerous_code code "python").1 = false ↔
      (∃ d, d ∈ dangerous_imports ∧ (∃ p s, code.toList = p ++ d.toList ++ s) ∧
        (SearchHit (impPat d) code.toList ∨ SearchHit (fromPat d) code.toList ∨
          SearchHit (dynPat d) code.toList)) ∨
      (∃ ts, ts ∈ dangerous_patterns ∧ SearchHit ts code.toList) := by
  cases hf : findBlockedImport dangerous_imports code.toList with
  | some d =>
    have hd := findBlockedImport_some_mem hf
    have himp := (importHit_iff d code.toList).mp hd.2
    apply iff_of_true
    · rw [check_dangerous_code, if_neg (by simp), hf]
    · exact Or.inl ⟨d, hd.1, himp.1, himp.2⟩
  | none =>
    by_cases hp : dangerous_patterns.any (fun ts => searchTok ts code.toList) = true
    · apply iff_of_true
      · rw [check_dangerous_code, if_neg (by simp), hf, if_pos hp]
      · obtain ⟨ts, hts, hsearch⟩ := List.any_eq_true.mp hp
        exact Or.inr ⟨ts, hts, (searchTok_iff ts code.toList).mp hsearch⟩
    · apply iff_of_false
      · rw [check_dangerous_code, if_neg (by simp), hf, if_neg hp]
        simp
      · rintro (⟨d, hd, hsub, hhits⟩ | ⟨ts, hts, hhit⟩)
        · have hnone := findBlockedImport_none_all hf d hd
          have h2 : importHit d code.toList = true :=
            (importHit_iff d code.toList).mpr ⟨hsub, hhits⟩
          rw [hnone] at h2
          exact absurd h2 (by simp)
        · have h2 : searchTok ts code.toList = true :=
            (searchTok_iff ts code.toList).mpr hhit
          exact hp (List.any_eq_true.mpr ⟨ts, hts, h2⟩)

end ToolSandbox
